import Mathlib

/-!
Shallow embedding of the combat tick engine of the Idle-ARPG repository
(source: src/unnamed/part_000, a TypeScript `GameEngine` class, together
with the `GameData` configuration module).

Numbers: the source uses JavaScript numbers but every stored quantity is
integer-valued except the mana accumulator and the millisecond timers,
which we model exactly as rationals (ℚ).  HP, mana, damage and gold are
modelled as ℤ (HP may transiently go negative, exactly as in the source).
`Math.floor(x)` is `Int.floor`, `Math.round(x)` is `round`.
Randomness (`Math.random()` calls) is passed in explicitly as an oracle
structure `Rng`; each field corresponds to one call site.
-/

namespace IdleARPG

/-- `Character` interface of the source (UI-only fields `sprite` etc. omitted). -/
structure Character where
  name : String
  hp : ℤ
  maxHp : ℤ
  mana : ℤ
  maxMana : ℤ
  baseMana : ℤ
  manaRegen : ℚ
  baseManaRegen : ℚ
  damage : ℤ
  baseDamage : ℤ
  armor : ℤ
  gold : ℤ
  deriving Repr, DecidableEq

/-- `Summon` interface of the source (sprite fields omitted). -/
structure Summon where
  name : String
  hp : ℤ
  maxHp : ℤ
  damage : ℤ
  attackSpeed : ℚ
  attackTimer : ℚ
  timeRemaining : ℚ
  deriving Repr, DecidableEq

/-- An entry of the `ENEMIES` table in `GameData`. -/
structure EnemyType where
  name : String
  hp : ℤ
  damage : ℤ
  attackSpeed : ℚ
  deriving Repr, DecidableEq

/-- The fields of an `Ability` definition that the combat core reads. -/
structure Ability where
  id : String
  manaCost : ℤ
  cooldown : Option ℚ
  damageMultiplier : ℚ
  healOnDamage : Bool
  deriving Repr, DecidableEq

/-- A combat rule as authored in the rules UI (`combatRules` entries). -/
structure CombatRule where
  id : String
  priority : ℤ
  conditionType : String
  conditionValue : ℚ
  action : String
  enabled : Bool
  deriving Repr, DecidableEq

/-- The combat-relevant mutable state of the `GameEngine` class.
The combat log, inventory, shop and DOM bookkeeping are presentation-side
and are not part of the combat state. -/
structure GameState where
  player : Character
  enemy : Character
  currentEnemyType : EnemyType
  isSwinging : Bool
  currentSwingTime : ℚ
  enemyAttackTimer : ℚ
  globalCooldown : ℚ
  abilityCooldowns : List (String × ℚ)
  windfuryActive : Bool
  manaReserved : ℚ
  summons : List Summon
  manaAccumulator : ℚ
  combatRules : List CombatRule
  deriving Repr, DecidableEq

/-- Oracle for the `Math.random()` calls of one tick; each field stands for
one call site, always a value in `[0, 1)` unless noted. -/
structure Rng where
  swingVariance : ℚ
  windfuryProc : ℚ
  spellMeleeVariance : ℚ
  summonVariance : ℕ → ℚ
  enemyVariance : ℚ
  enemyTargetRoll : ℚ
  enemySummonIndex : ℕ
  goldRoll : ℕ
  bonusRoll : ℚ
  bonusGoldRoll : ℕ

-- ===== Configuration constants (GameData) =====

/-- `CONFIG.GLOBAL_COOLDOWN` (ms). -/
def GLOBAL_COOLDOWN : ℚ := 1500

/-- `PLAYER_CONFIG.MELEE_SWING_TIME` (ms). -/
def MELEE_SWING_TIME : ℚ := 4500

/-- Modelled from the spec: `CONFIG.DAMAGE_VARIANCE_MIN` is read by
`calculateDamageWithVariance` but the matching `GameData` revision is not
under src/; the spec gives the band 0.8–1.2. -/
def DAMAGE_VARIANCE_MIN : ℚ := 8/10

/-- Modelled from the spec: `CONFIG.DAMAGE_VARIANCE_MAX`, see
`DAMAGE_VARIANCE_MIN`. -/
def DAMAGE_VARIANCE_MAX : ℚ := 12/10

/-- Modelled from the spec: `ABILITIES.holyStrike.damageMultiplier` is read
by the holy-strike `execute` closure but the matching `GameData` revision is
not under src/; the spec only says holy strike scales off a melee roll, so
the multiplier is a positive constant whose value no claim depends on. -/
def HOLY_STRIKE_MULTIPLIER : ℚ := 3/2

/-- `ABILITIES.holyStrike` (`manaCost` 25 and `cooldown` 6000 as in the
`GameData` revision under src/unnamed/part_002). -/
def holyStrike : Ability :=
  { id := "holy_strike", manaCost := 25, cooldown := some 6000,
    damageMultiplier := HOLY_STRIKE_MULTIPLIER, healOnDamage := true }

/-- `ABILITIES.summonSkeleton.manaCost`. -/
def SUMMON_MANA_COST : ℤ := 50

/-- `ABILITIES.summonSkeleton.duration` (ms). -/
def SUMMON_DURATION : ℚ := 30000

/-- `ABILITIES.summonSkeleton.summonDamageMultiplier`: the source comments
it as "75% of player damage". -/
def SUMMON_DAMAGE_MULTIPLIER : ℚ := 3/4

/-- `ABILITIES.windfuryAura.manaReserve`. -/
def WINDFURY_MANA_RESERVE : ℚ := 1/2

/-- `ABILITIES.windfuryAura.windfuryChance`. -/
def WINDFURY_CHANCE : ℚ := 1/5

/-- `this.maxSummons` of the engine. -/
def maxSummons : ℕ := 3

/-- `ENEMIES.skeleton`. -/
def skeletonType : EnemyType :=
  { name := "Skeleton", hp := 100, damage := 10, attackSpeed := 3000 }

-- ===== Constructors =====

/-- `createPlayer()`. -/
def createPlayer : Character :=
  { name := "Cleric", hp := 100, maxHp := 100, mana := 100, maxMana := 100,
    baseMana := 100, manaRegen := 1, baseManaRegen := 1, damage := 10,
    baseDamage := 10, armor := 0, gold := 10 }

/-- `createEnemy(enemyType)`. -/
def createEnemy (enemyType : EnemyType) : Character :=
  { name := enemyType.name, hp := enemyType.hp, maxHp := enemyType.hp,
    mana := 0, maxMana := 0, baseMana := 0, manaRegen := 0,
    baseManaRegen := 0, damage := enemyType.damage,
    baseDamage := enemyType.damage, armor := 0, gold := 0 }

-- ===== Small helpers =====

/-- `calculateDamageWithVariance(baseDamage)`: the uniform roll
`Math.random()` is the explicit argument `u`. -/
def calculateDamageWithVariance (baseDamage : ℤ) (u : ℚ) : ℤ :=
  round ((baseDamage : ℚ) *
    (u * (DAMAGE_VARIANCE_MAX - DAMAGE_VARIANCE_MIN) + DAMAGE_VARIANCE_MIN))

/-- `this.abilityCooldowns.get(id) || 0`. -/
def cooldownOf (s : GameState) (abilityId : String) : ℚ :=
  ((s.abilityCooldowns.lookup abilityId).getD 0)

/-- `Map.set` on the association-list model of `abilityCooldowns`. -/
def setCooldown (m : List (String × ℚ)) (k : String) (v : ℚ) :
    List (String × ℚ) :=
  if m.any (fun p => p.1 = k) then
    m.map (fun p => if p.1 = k then (k, v) else p)
  else m ++ [(k, v)]

/-- Update the `n`-th element of a list in place (models mutating
`this.summons[i]`). -/
def updateAt {α : Type} (l : List α) (n : ℕ) (f : α → α) : List α :=
  match l, n with
  | [], _ => []
  | x :: xs, 0 => f x :: xs
  | x :: xs, n + 1 => x :: updateAt xs n f

/-- `(this.player.hp / this.player.maxHp) * 100`. -/
def hpPercent (s : GameState) : ℚ :=
  (s.player.hp : ℚ) / (s.player.maxHp : ℚ) * 100

-- ===== Mana regeneration (updateMana) =====

/-- One step of the mana accumulator on the pair
(current mana, accumulator); the body of `updateMana(deltaTime)`. -/
def manaStep (regen : ℚ) (maxMana : ℤ) (p : ℤ × ℚ) (d : ℚ) : ℤ × ℚ :=
  let a := p.2 + regen * d / 1000
  if 1 ≤ a then (min (p.1 + ⌊a⌋) maxMana, a - (⌊a⌋ : ℚ)) else (p.1, a)

/-- `updateMana(deltaTime)`. -/
def updateMana (d : ℚ) (s : GameState) : GameState :=
  let p := manaStep s.player.manaRegen s.player.maxMana
    (s.player.mana, s.manaAccumulator) d
  { s with player := { s.player with mana := p.1 }, manaAccumulator := p.2 }

-- ===== Melee swing =====

/-- `startMeleeSwing()`. -/
def startMeleeSwing (s : GameState) : GameState :=
  { s with isSwinging := true, currentSwingTime := MELEE_SWING_TIME }

/-- `cancelMeleeSwing()`. -/
def cancelMeleeSwing (s : GameState) : GameState :=
  { s with isSwinging := false, currentSwingTime := 0 }

/-- Synchronous part of `completeMeleeSwing()`: clears the swinging flag and
applies one varianced melee hit to the current enemy.  The Windfury proc
roll only schedules deferred `setTimeout` strikes (see
`windfuryMeleeCallback`) and logs; it changes no combat state inside the
tick. -/
def completeMeleeSwing (rng : Rng) (s : GameState) : GameState :=
  let dmg := calculateDamageWithVariance s.player.damage rng.swingVariance
  { s with isSwinging := false,
           enemy := { s.enemy with hp := s.enemy.hp - dmg } }

/-- The body of one deferred Windfury bonus strike scheduled by
`completeMeleeSwing` via `setTimeout`: when it fires it reads
`this.player.damage` and mutates `this.enemy.hp` — the engine's *current*
enemy at fire time, with no cancellation and no staleness guard. -/
def windfuryMeleeCallback (u : ℚ) (s : GameState) : GameState :=
  let dmg := calculateDamageWithVariance s.player.damage u
  { s with enemy := { s.enemy with hp := s.enemy.hp - dmg } }

-- ===== Timers (updateTimers) =====

/-- `updateTimers(deltaTime)`. -/
def updateTimers (rng : Rng) (d : ℚ) (s : GameState) : GameState :=
  let s :=
    if 0 < s.globalCooldown then
      { s with globalCooldown := s.globalCooldown - d }
    else s
  let s :=
    { s with abilityCooldowns :=
        ((s.abilityCooldowns.map (fun (p : String × ℚ) => (p.1, p.2 - d))).filter
          (fun (p : String × ℚ) => decide (0 < p.2))) }
  if s.isSwinging then
    let s := { s with currentSwingTime := s.currentSwingTime - d }
    if s.currentSwingTime ≤ 0 then completeMeleeSwing rng s else s
  else s

-- ===== Summon lifecycle (updateSummons) =====

/-- `updateSummons(deltaTime)`: decrement every lifespan, then drop summons
whose lifespan elapsed or whose hp dropped to zero. -/
def updateSummons (d : ℚ) (s : GameState) : GameState :=
  { s with summons :=
      ((s.summons.map (fun su => { su with timeRemaining := su.timeRemaining - d })).filter
        (fun su => decide (0 < su.timeRemaining) && decide (0 < su.hp))) }

-- ===== Instant spells =====

/-- `castInstantSpell(ability)` with the holy-strike `execute` closure
inlined (holy strike is the only instant-damage spell in the source):
deduct mana, start the global cooldown and the ability cooldown, roll a
fresh melee-equivalent damage value, scale it by the ability multiplier,
apply it to the enemy and heal the caster if `healOnDamage`.  Windfury
bonus casts are deferred `setTimeout` work (see `windfuryMeleeCallback`). -/
def castInstantSpell (rng : Rng) (ability : Ability) (s : GameState) :
    GameState :=
  let s := { s with
    player := { s.player with mana := s.player.mana - ability.manaCost },
    globalCooldown := GLOBAL_COOLDOWN }
  let s :=
    match ability.cooldown with
    | some cd =>
        { s with abilityCooldowns := setCooldown s.abilityCooldowns ability.id cd }
    | none => s
  let baseMelee := calculateDamageWithVariance s.player.damage rng.spellMeleeVariance
  let holyDamage := round ((baseMelee : ℚ) * ability.damageMultiplier)
  let s := { s with enemy := { s.enemy with hp := s.enemy.hp - holyDamage } }
  if ability.healOnDamage then
    { s with player := { s.player with
        hp := min (s.player.hp + holyDamage) s.player.maxHp } }
  else s

/-- `castHolyStrike()`: the public entry point with its guard chain. -/
def castHolyStrike (rng : Rng) (s : GameState) : GameState :=
  if s.player.hp ≤ 0 then s
  else if 0 < s.globalCooldown then s
  else if s.player.mana < holyStrike.manaCost then s
  else if 0 < cooldownOf s holyStrike.id then s
  else
    let s := if s.isSwinging then cancelMeleeSwing s else s
    castInstantSpell rng holyStrike s

/-- `castSummonSkeleton()`: the public entry point with its guard chain. -/
def castSummonSkeleton (s : GameState) : GameState :=
  if s.player.hp ≤ 0 then s
  else if 0 < s.globalCooldown then s
  else if s.player.mana < SUMMON_MANA_COST then s
  else if maxSummons ≤ s.summons.length then s
  else
    let s := if s.isSwinging then cancelMeleeSwing s else s
    let s := { s with
      player := { s.player with mana := s.player.mana - SUMMON_MANA_COST },
      globalCooldown := GLOBAL_COOLDOWN }
    let summonBaseDamage :=
      round ((s.player.damage : ℚ) * SUMMON_DAMAGE_MULTIPLIER)
    let newSummon : Summon :=
      { name := "Skeleton Minion", hp := skeletonType.hp,
        maxHp := skeletonType.hp, damage := summonBaseDamage,
        attackSpeed := skeletonType.attackSpeed, attackTimer := 0,
        timeRemaining := SUMMON_DURATION }
    { s with summons := s.summons ++ [newSummon] }

-- ===== Aura toggle =====

/-- `toggleWindfuryAura()`, parameterised by the configured reservation
fraction (`ABILITIES.windfuryAura.manaReserve`; the engine always passes
`WINDFURY_MANA_RESERVE`). -/
def toggleWindfuryAura (reserveFraction : ℚ) (s : GameState) : GameState :=
  if s.windfuryActive then
    let p := { s.player with maxMana := s.player.baseMana }
    let s := { s with windfuryActive := false, manaReserved := 0, player := p }
    if s.player.maxMana < s.player.mana then
      { s with player := { s.player with mana := s.player.maxMana } }
    else s
  else
    let p := { s.player with
      maxMana := ⌊(s.player.baseMana : ℚ) * (1 - reserveFraction)⌋ }
    let s := { s with windfuryActive := true,
                      manaReserved := reserveFraction, player := p }
    if s.player.maxMana < s.player.mana then
      { s with player := { s.player with mana := s.player.maxMana } }
    else s

-- ===== Rule engine =====

/-- `checkSimpleRuleCondition(rule)`: the condition predicate with the
action-feasibility gate baked in.  The source's `switch` on the condition
type and the inner `if`/`else if` chains on the action string are modelled
as equality tests on the strings; the `default` branch returns `false`. -/
def checkSimpleRuleCondition (s : GameState) (rule : CombatRule) : Bool :=
  if rule.conditionType = "hp_below" then
    if rule.action = "holy_strike" then
      decide (hpPercent s < rule.conditionValue) &&
      decide (cooldownOf s holyStrike.id ≤ 0) &&
      decide (holyStrike.manaCost ≤ s.player.mana)
    else if rule.action = "summon_skeleton" then
      decide (hpPercent s < rule.conditionValue) &&
      decide (SUMMON_MANA_COST ≤ s.player.mana) &&
      decide (s.summons.length < maxSummons)
    else if rule.action = "toggle_windfury" then
      decide (hpPercent s < rule.conditionValue) != s.windfuryActive
    else
      decide (hpPercent s < rule.conditionValue)
  else if rule.conditionType = "hp_above" then
    if rule.action = "holy_strike" then
      decide (rule.conditionValue ≤ hpPercent s) &&
      decide (cooldownOf s holyStrike.id ≤ 0) &&
      decide (holyStrike.manaCost ≤ s.player.mana)
    else if rule.action = "summon_skeleton" then
      decide (rule.conditionValue ≤ hpPercent s) &&
      decide (SUMMON_MANA_COST ≤ s.player.mana) &&
      decide (s.summons.length < maxSummons)
    else if rule.action = "toggle_windfury" then
      decide (rule.conditionValue ≤ hpPercent s) != s.windfuryActive
    else
      decide (rule.conditionValue ≤ hpPercent s)
  else if rule.conditionType = "always" then
    if rule.action = "holy_strike" then
      decide (cooldownOf s holyStrike.id ≤ 0) &&
      decide (holyStrike.manaCost ≤ s.player.mana)
    else if rule.action = "summon_skeleton" then
      decide (SUMMON_MANA_COST ≤ s.player.mana) &&
      decide (s.summons.length < maxSummons)
    else if rule.action = "toggle_windfury" then
      !s.windfuryActive
    else
      true
  else
    false

/-- `executeAction(action)`: the action-string `switch`; `'none'` and the
`default` branch change no combat state. -/
def executeAction (rng : Rng) (action : String) (s : GameState) : GameState :=
  if action = "holy_strike" then
    let s := if s.isSwinging then cancelMeleeSwing s else s
    castInstantSpell rng holyStrike s
  else if action = "summon_skeleton" then
    castSummonSkeleton s
  else if action = "melee" then
    if !s.isSwinging then startMeleeSwing s else s
  else if action = "toggle_windfury" then
    let s := toggleWindfuryAura WINDFURY_MANA_RESERVE s
    { s with globalCooldown := 500 }
  else
    s

/-- The rule-scan loop of `processPlayerAction`: skip disabled rules and
return the action of the first enabled rule whose condition holds.  The
`break` of the source is the fact that the remainder of the list is never
consulted once a match is found. -/
def firstMatch (s : GameState) : List CombatRule → Option String
  | [] => none
  | r :: rs =>
      if r.enabled && checkSimpleRuleCondition s r then some r.action
      else firstMatch s rs

/-- `[...this.combatRules].sort((a, b) => a.priority - b.priority)`:
a stable ascending sort by priority (JavaScript `Array.prototype.sort`
is stable). -/
def sortRules (rules : List CombatRule) : List CombatRule :=
  rules.insertionSort (fun a b => a.priority ≤ b.priority)

/-- The rule selected by one player-action pass. -/
def selectAction (s : GameState) : Option String :=
  firstMatch s (sortRules s.combatRules)

/-- `processPlayerAction()`. -/
def processPlayerAction (rng : Rng) (s : GameState) : GameState :=
  if s.player.hp ≤ 0 || decide (0 < s.globalCooldown) then s
  else
    match selectAction s with
    | some action => executeAction rng action s
    | none => s

-- ===== Summon actions =====

/-- Body of the `forEach` of `processSummonActions`; the accumulator holds
the enemy hp so far, the processed summons and the index of the next
variance roll (`Math.random()` is only consumed when a summon fires). -/
def summonActStep (rng : Rng) (d : ℚ) (acc : ℤ × List Summon × ℕ)
    (su : Summon) : ℤ × List Summon × ℕ :=
  let t := su.attackTimer + d
  if su.attackSpeed ≤ t then
    let dmg := calculateDamageWithVariance su.damage (rng.summonVariance acc.2.2)
    (acc.1 - dmg, acc.2.1 ++ [{ su with attackTimer := 0 }], acc.2.2 + 1)
  else
    (acc.1, acc.2.1 ++ [{ su with attackTimer := t }], acc.2.2)

/-- `processSummonActions(deltaTime)`. -/
def processSummonActions (rng : Rng) (d : ℚ) (s : GameState) : GameState :=
  if s.enemy.hp ≤ 0 then s
  else
    let r := s.summons.foldl (summonActStep rng d) (s.enemy.hp, [], 0)
    { s with enemy := { s.enemy with hp := r.1 }, summons := r.2.1 }

-- ===== Enemy AI =====

/-- `enemyAttack()`: one varianced hit, redirected to a uniformly random
summon with probability 0.3 when summons are alive (no armor), else to the
player with flat armor reduction floored at 1. -/
def enemyAttack (rng : Rng) (s : GameState) : GameState :=
  let baseDamage := calculateDamageWithVariance s.enemy.damage rng.enemyVariance
  if 0 < s.summons.length && decide (rng.enemyTargetRoll < 3/10) then
    let idx := rng.enemySummonIndex % s.summons.length
    let hit := updateAt s.summons idx
      (fun su => { su with hp := su.hp - baseDamage })
    { s with summons := hit }
  else
    let damageAfterArmor := max 1 (baseDamage - s.player.armor)
    { s with player := { s.player with hp := s.player.hp - damageAfterArmor } }

/-- `processEnemyAction(deltaTime)`. -/
def processEnemyAction (rng : Rng) (d : ℚ) (s : GameState) : GameState :=
  if s.enemy.hp ≤ 0 || s.player.hp ≤ 0 then s
  else
    let s := { s with enemyAttackTimer := s.enemyAttackTimer + d }
    if s.currentEnemyType.attackSpeed ≤ s.enemyAttackTimer then
      { enemyAttack rng s with enemyAttackTimer := 0 }
    else s

-- ===== Combat-end resolver =====

/-- `Math.floor(gold * 0.1)` (exact-arithmetic reading of the float). -/
def goldPenalty (gold : ℤ) : ℤ := ⌊(gold : ℚ) / 10⌋

/-- The kill gold award of `checkCombatEnd()`:
`Math.floor(Math.random()*4) + 2`, plus, with 10% probability, a
`Math.floor(Math.random()*10) + 5` bonus. -/
def enemyGoldAward (rng : Rng) : ℤ :=
  let goldDrop : ℤ := (rng.goldRoll % 4 : ℕ) + 2
  if rng.bonusRoll < 1/10 then goldDrop + ((rng.bonusGoldRoll % 10 : ℕ) + 5)
  else goldDrop

/-- The enemy-defeat branch of `checkCombatEnd()`: gold award, optional
item drop (inventory only, outside combat state), then wholesale enemy
replacement and attack timer reset. -/
def enemyDefeatStep (rng : Rng) (s : GameState) : GameState :=
  if s.enemy.hp ≤ 0 then
    let s := { s with player :=
      { s.player with gold := s.player.gold + enemyGoldAward rng } }
    { s with enemy := createEnemy s.currentEnemyType, enemyAttackTimer := 0 }
  else s

/-- The player-death branch of `checkCombatEnd()`: 10% gold penalty, full
heal and mana refill to the (possibly reservation-reduced) maxima, clear
the swing and the global cooldown.  The source's aura conditional assigns
`this.player.mana = this.player.maxMana` in both branches. -/
def playerDeathStep (s : GameState) : GameState :=
  if s.player.hp ≤ 0 then
    let goldLost := goldPenalty s.player.gold
    let s :=
      if 0 < goldLost then
        { s with player := { s.player with gold := s.player.gold - goldLost } }
      else s
    let p := { s.player with hp := s.player.maxHp }
    let p := { p with mana := p.maxMana }
    { s with player := p, isSwinging := false, currentSwingTime := 0,
             globalCooldown := 0 }
  else s

/-- `checkCombatEnd()`: both branches run unconditionally, enemy first. -/
def checkCombatEnd (rng : Rng) (s : GameState) : GameState :=
  playerDeathStep (enemyDefeatStep rng s)

-- ===== The tick pipeline =====

/-- `tick()`: the per-frame pipeline in source order (UI updates omitted). -/
def tick (rng : Rng) (d : ℚ) (s : GameState) : GameState :=
  checkCombatEnd rng
    (processEnemyAction rng d
      (processSummonActions rng d
        (processPlayerAction rng
          (updateSummons d
            (updateTimers rng d
              (updateMana d s))))))

-- ===== Concrete fixtures =====

/-- A fixed random oracle for concrete evaluations. -/
def demoRng : Rng :=
  { swingVariance := 1/2, windfuryProc := 1/2, spellMeleeVariance := 1/2,
    summonVariance := fun _ => 1/2, enemyVariance := 1/2,
    enemyTargetRoll := 1/2, enemySummonIndex := 0, goldRoll := 1,
    bonusRoll := 1/2, bonusGoldRoll := 0 }

/-- The default rule set installed by `loadCombatRules()` when nothing is
persisted. -/
def defaultRules : List CombatRule :=
  [ { id := "rule_1", priority := 1, conditionType := "hp_below",
      conditionValue := 75, action := "holy_strike", enabled := true },
    { id := "rule_2", priority := 2, conditionType := "always",
      conditionValue := 0, action := "melee", enabled := true } ]

/-- The engine state as built by the constructor. -/
def initialEngineState : GameState :=
  { player := createPlayer, enemy := createEnemy skeletonType,
    currentEnemyType := skeletonType, isSwinging := false,
    currentSwingTime := 0, enemyAttackTimer := 0, globalCooldown := 0,
    abilityCooldowns := [], windfuryActive := false, manaReserved := 0,
    summons := [], manaAccumulator := 0, combatRules := defaultRules }

/-- Initial state with the player at 50% HP (holy strike ready, mana full). -/
def halfHpState : GameState :=
  { initialEngineState with
      player := { initialEngineState.player with hp := 50 } }

/-- 50% HP but holy strike on cooldown. -/
def halfHpCooldownState : GameState :=
  { halfHpState with abilityCooldowns := [("holy_strike", 3000)] }

/-- 50% HP but not enough mana for holy strike. -/
def halfHpPoorState : GameState :=
  { halfHpState with
      player := { halfHpState.player with mana := 10 } }

-- ===== C1 =====

/-- C1: the player-action pass evaluates the rules sorted ascending by
priority, skips disabled rules, executes the action of the first enabled
rule whose condition-and-feasibility predicate holds, and consults no rule
after the match (`firstMatch` equals `List.find?`, which short-circuits);
concretely, with the default rules a 100%-HP player melees, a 50%-HP
player with holy strike available casts it, and a 50%-HP player whose
holy strike is on cooldown or unaffordable falls through to melee. -/
theorem C1_player_action_pass :
    (∀ rules : List CombatRule,
        (sortRules rules).Sorted (fun a b => a.priority ≤ b.priority) ∧
        (sortRules rules).Perm rules) ∧
    (∀ (s : GameState) (l : List CombatRule),
        firstMatch s l =
          (l.find? (fun r => r.enabled && checkSimpleRuleCondition s r)).map
            CombatRule.action) ∧
    (∀ (rng : Rng) (s : GameState),
        processPlayerAction rng s =
          if s.player.hp ≤ 0 || decide (0 < s.globalCooldown) then s
          else
            match firstMatch s (sortRules s.combatRules) with
            | some action => executeAction rng action s
            | none => s) ∧
    selectAction initialEngineState = some "melee" ∧
    selectAction halfHpState = some "holy_strike" ∧
    selectAction halfHpCooldownState = some "melee" ∧
    selectAction halfHpPoorState = some "melee" ∧
    processPlayerAction demoRng halfHpCooldownState =
      executeAction demoRng "melee" halfHpCooldownState := by
  have hsel : selectAction halfHpCooldownState = some "melee" := by
    norm_num [selectAction, sortRules, List.insertionSort, List.orderedInsert,
      firstMatch, checkSimpleRuleCondition, defaultRules, halfHpCooldownState,
      halfHpState, initialEngineState, createPlayer, createEnemy, skeletonType,
      hpPercent, cooldownOf, holyStrike, maxSummons, SUMMON_MANA_COST] <;>
      decide
  refine ⟨?_, ?_, ?_, ?_, ?_, hsel, ?_, ?_⟩
  · intro rules
    haveI : IsTotal CombatRule (fun a b => a.priority ≤ b.priority) :=
      ⟨fun a b => le_total a.priority b.priority⟩
    haveI : IsTrans CombatRule (fun a b => a.priority ≤ b.priority) :=
      ⟨fun _ _ _ h1 h2 => le_trans h1 h2⟩
    exact ⟨List.sorted_insertionSort _ rules, List.perm_insertionSort _ rules⟩
  · intro s l
    induction l with
    | nil => rfl
    | cons r rs ih =>
        by_cases hc : (r.enabled && checkSimpleRuleCondition s r) = true
        · have hf : List.find?
              (fun r => r.enabled && checkSimpleRuleCondition s r) (r :: rs) =
              some r := List.find?_cons_of_pos rs hc
          rw [firstMatch, if_pos hc, hf]
          rfl
        · have hf : List.find?
              (fun r => r.enabled && checkSimpleRuleCondition s r) (r :: rs) =
              List.find? (fun r => r.enabled && checkSimpleRuleCondition s r)
                rs := List.find?_cons_of_neg rs hc
          rw [firstMatch, if_neg hc, hf, ih]
  · intro rng s
    rfl
  · norm_num [selectAction, sortRules, List.insertionSort, List.orderedInsert,
      firstMatch, checkSimpleRuleCondition, defaultRules,
      initialEngineState, createPlayer, createEnemy, skeletonType,
      hpPercent, cooldownOf, holyStrike, maxSummons, SUMMON_MANA_COST] <;>
      decide
  · norm_num [selectAction, sortRules, List.insertionSort, List.orderedInsert,
      firstMatch, checkSimpleRuleCondition, defaultRules, halfHpState,
      initialEngineState, createPlayer, createEnemy, skeletonType,
      hpPercent, cooldownOf, holyStrike, maxSummons, SUMMON_MANA_COST] <;>
      decide
  · norm_num [selectAction, sortRules, List.insertionSort, List.orderedInsert,
      firstMatch, checkSimpleRuleCondition, defaultRules, halfHpPoorState,
      halfHpState, initialEngineState, createPlayer, createEnemy, skeletonType,
      hpPercent, cooldownOf, holyStrike, maxSummons, SUMMON_MANA_COST] <;>
      decide
  · rw [processPlayerAction, hsel]
    norm_num [halfHpCooldownState, halfHpState, initialEngineState,
      createPlayer]

-- ===== C8 =====

/-- C8: a rule whose condition type is not `hp_below`, `hp_above` or
`always` is never satisfied, and an action string the executor does not
recognise changes no combat state (and, being total Lean functions,
neither can fail). -/
theorem C8_unknown_rules_are_safe :
    (∀ (s : GameState) (r : CombatRule),
        r.conditionType ≠ "hp_below" → r.conditionType ≠ "hp_above" →
        r.conditionType ≠ "always" →
        checkSimpleRuleCondition s r = false) ∧
    (∀ (rng : Rng) (action : String) (s : GameState),
        action ≠ "holy_strike" → action ≠ "summon_skeleton" →
        action ≠ "melee" → action ≠ "toggle_windfury" →
        executeAction rng action s = s) := by
  constructor
  · intro s r h1 h2 h3
    simp [checkSimpleRuleCondition, h1, h2, h3]
  · intro rng action s h1 h2 h3 h4
    simp [executeAction, h1, h2, h3, h4]

/-- Witness for C8 at a concrete malformed rule and action string. -/
theorem C8_witness :
    checkSimpleRuleCondition initialEngineState
      { id := "bad", priority := 1, conditionType := "mana_below",
        conditionValue := 10, action := "melee", enabled := true } = false ∧
    executeAction demoRng "fireball" initialEngineState =
      initialEngineState :=
  ⟨C8_unknown_rules_are_safe.1 _ _ (by decide) (by decide) (by decide),
   C8_unknown_rules_are_safe.2 _ _ _ (by decide) (by decide) (by decide)
     (by decide)⟩

-- ===== C6 =====

/-- C6: a cast while dead, during the global cooldown, with insufficient
mana, or with the ability on cooldown is a rejected no-op on the combat
state, and summoning at the concurrent-summon cap is rejected the same
way. -/
theorem C6_invalid_casts_are_noops :
    (∀ (rng : Rng) (s : GameState),
        (s.player.hp ≤ 0 ∨ 0 < s.globalCooldown ∨
         s.player.mana < holyStrike.manaCost ∨
         0 < cooldownOf s holyStrike.id) →
        castHolyStrike rng s = s) ∧
    (∀ s : GameState,
        (s.player.hp ≤ 0 ∨ 0 < s.globalCooldown ∨
         s.player.mana < SUMMON_MANA_COST ∨
         maxSummons ≤ s.summons.length) →
        castSummonSkeleton s = s) := by
  constructor
  · intro rng s h
    unfold castHolyStrike
    split_ifs with h1 h2 h3 h4 h5 <;> try rfl
    all_goals
      rcases h with h | h | h | h
      <;> exact absurd h (by assumption)
  · intro s h
    unfold castSummonSkeleton
    split_ifs with h1 h2 h3 h4 h5 <;> try rfl
    all_goals
      rcases h with h | h | h | h
      <;> exact absurd h (by assumption)

/-- Witness for C6: concrete rejected casts (no mana; at the summon cap). -/
theorem C6_witness :
    castHolyStrike demoRng halfHpPoorState = halfHpPoorState ∧
    castSummonSkeleton halfHpPoorState = halfHpPoorState :=
  ⟨C6_invalid_casts_are_noops.1 demoRng halfHpPoorState
      (Or.inr (Or.inr (Or.inl (by decide)))),
   C6_invalid_casts_are_noops.2 halfHpPoorState
      (Or.inr (Or.inr (Or.inl (by decide))))⟩

-- ===== C5 =====

/-- C5: activating the reservation aura with fraction `f` sets `maxMana`
to `⌊baseMana * (1 - f)⌋` and deactivating restores `maxMana = baseMana`;
in both directions the current mana is clamped down to the new maximum
when it exceeds it and is untouched otherwise (`min`). -/
theorem C5_reservation_aura_toggle (s : GameState) (f : ℚ) :
    (s.windfuryActive = false →
      (toggleWindfuryAura f s).player.maxMana =
          ⌊(s.player.baseMana : ℚ) * (1 - f)⌋ ∧
      (toggleWindfuryAura f s).player.mana =
          min s.player.mana ⌊(s.player.baseMana : ℚ) * (1 - f)⌋ ∧
      (toggleWindfuryAura f s).windfuryActive = true) ∧
    (s.windfuryActive = true →
      (toggleWindfuryAura f s).player.maxMana = s.player.baseMana ∧
      (toggleWindfuryAura f s).player.mana =
          min s.player.mana s.player.baseMana ∧
      (toggleWindfuryAura f s).windfuryActive = false) := by
  constructor
  · intro h
    unfold toggleWindfuryAura
    rw [h]
    simp only [Bool.false_eq_true, if_false]
    split_ifs with hm
    · exact ⟨rfl, (min_eq_right (le_of_lt hm)).symm, rfl⟩
    · exact ⟨rfl, (min_eq_left (not_lt.mp hm)).symm, rfl⟩
  · intro h
    unfold toggleWindfuryAura
    rw [h]
    simp only [if_true]
    split_ifs with hm
    · exact ⟨rfl, (min_eq_right (le_of_lt hm)).symm, rfl⟩
    · exact ⟨rfl, (min_eq_left (not_lt.mp hm)).symm, rfl⟩

/-- Witness for C5: toggling the aura on from the initial state halves max
mana to 50 and clamps mana from 100 down to 50; toggling it off again
restores 100. -/
theorem C5_witness :
    (toggleWindfuryAura (1/2) initialEngineState).player.maxMana =
        ⌊(initialEngineState.player.baseMana : ℚ) * (1 - 1/2)⌋ ∧
    (toggleWindfuryAura (1/2) initialEngineState).player.mana =
        min initialEngineState.player.mana
          ⌊(initialEngineState.player.baseMana : ℚ) * (1 - 1/2)⌋ ∧
    (toggleWindfuryAura (1/2)
        (toggleWindfuryAura (1/2) initialEngineState)).player.maxMana =
      (toggleWindfuryAura (1/2) initialEngineState).player.baseMana := by
  refine ⟨((C5_reservation_aura_toggle initialEngineState (1/2)).1 rfl).1,
          ((C5_reservation_aura_toggle initialEngineState (1/2)).1 rfl).2.1,
          ((C5_reservation_aura_toggle
              (toggleWindfuryAura (1/2) initialEngineState) (1/2)).2 ?_).1⟩
  exact ((C5_reservation_aura_toggle initialEngineState (1/2)).1 rfl).2.2

-- ===== C9 =====

/-- The summon `forEach` of `processSummonActions` viewed as a `map` on
attack timers: timers at or past the threshold reset to 0, others advance
by `d`. -/
theorem summonAct_foldl_timers (rng : Rng) (d : ℚ) (l : List Summon) :
    ∀ (h : ℤ) (acc : List Summon) (i : ℕ),
      (l.foldl (summonActStep rng d) (h, acc, i)).2.1 =
        acc ++ l.map (fun su =>
          if su.attackSpeed ≤ su.attackTimer + d then { su with attackTimer := 0 }
          else { su with attackTimer := su.attackTimer + d }) := by
  induction l with
  | nil => intro h acc i; simp
  | cons su rest ih =>
      intro h acc i
      simp only [List.foldl_cons, List.map_cons]
      rw [summonActStep]
      split_ifs with hs
      · rw [ih]
        simp
      · rw [ih]
        simp

/-- C9: when a count-up attack timer reaches its attack-speed threshold in
a tick, one attack is resolved and the timer is reset to exactly 0 (the
overshoot beyond the threshold is discarded); below the threshold the
timer just advances by the delta.  Stated for the enemy's timer and for
every summon's timer, plus the single-summon attack resolution. -/
theorem C9_attack_timer_reset_discards_overshoot :
    (∀ (rng : Rng) (d : ℚ) (s : GameState),
        0 < s.enemy.hp → 0 < s.player.hp →
        s.currentEnemyType.attackSpeed ≤ s.enemyAttackTimer + d →
        processEnemyAction rng d s =
          { enemyAttack rng { s with enemyAttackTimer := s.enemyAttackTimer + d }
              with enemyAttackTimer := 0 }) ∧
    (∀ (rng : Rng) (d : ℚ) (s : GameState),
        0 < s.enemy.hp → 0 < s.player.hp →
        s.enemyAttackTimer + d < s.currentEnemyType.attackSpeed →
        processEnemyAction rng d s =
          { s with enemyAttackTimer := s.enemyAttackTimer + d }) ∧
    (∀ (rng : Rng) (d : ℚ) (s : GameState),
        0 < s.enemy.hp →
        (processSummonActions rng d s).summons = s.summons.map (fun su =>
          if su.attackSpeed ≤ su.attackTimer + d then { su with attackTimer := 0 }
          else { su with attackTimer := su.attackTimer + d })) ∧
    (∀ (rng : Rng) (d : ℚ) (s : GameState) (su : Summon),
        0 < s.enemy.hp → s.summons = [su] →
        su.attackSpeed ≤ su.attackTimer + d →
        (processSummonActions rng d s).enemy.hp =
          s.enemy.hp -
            calculateDamageWithVariance su.damage (rng.summonVariance 0)) := by
  refine ⟨?_, ?_, ?_, ?_⟩
  · intro rng d s he hp ht
    rw [processEnemyAction]
    rw [if_neg (by simp [not_le.mpr he, not_le.mpr hp]), if_pos (by simpa using ht)]
  · intro rng d s he hp ht
    rw [processEnemyAction]
    rw [if_neg (by simp [not_le.mpr he, not_le.mpr hp]),
        if_neg (by simpa using not_le.mpr ht)]
  · intro rng d s he
    rw [processSummonActions, if_neg (not_le.mpr he)]
    simp [summonAct_foldl_timers]
  · intro rng d s su he hsum ht
    rw [processSummonActions, if_neg (not_le.mpr he)]
    simp [hsum, summonActStep, if_pos ht]

/-- Witness for C9: with attack speed 3000, a timer at 2500 and a 1000 ms
delta, the enemy resolves an attack and the timer resets to 0, not to the
500 ms overshoot; the same holds for a summon. -/
theorem C9_witness :
    processEnemyAction demoRng 1000
        { initialEngineState with enemyAttackTimer := 2500 } =
      { enemyAttack demoRng
          { { initialEngineState with enemyAttackTimer := 2500 } with
              enemyAttackTimer :=
                ({ initialEngineState with
                    enemyAttackTimer := 2500 } : GameState).enemyAttackTimer
                  + 1000 }
          with enemyAttackTimer := 0 } ∧
    (processEnemyAction demoRng 1000
        { initialEngineState with enemyAttackTimer := 2500 }).enemyAttackTimer
      = 0 := by
  have h := C9_attack_timer_reset_discards_overshoot.1 demoRng 1000
    { initialEngineState with enemyAttackTimer := 2500 }
    (by norm_num [initialEngineState, createEnemy, skeletonType])
    (by norm_num [initialEngineState, createPlayer])
    (by norm_num [initialEngineState, skeletonType])
  exact ⟨h, by rw [h]⟩

-- ===== C4 =====

/-- Exact characterisation of the mana-regeneration fold: starting from an
accumulator in `[0, 1)`, as long as the clamp at `maxMana` never engages,
a sequence of ticks grants exactly `⌊a₀ + r·(Σd)/1000⌋` whole mana points
and leaves the fractional remainder in the accumulator. -/
theorem manaStep_foldl (r : ℚ) (maxM : ℤ) (hr : 0 ≤ r) :
    ∀ (ds : List ℚ) (m₀ : ℤ) (a₀ : ℚ), (∀ d ∈ ds, 0 ≤ d) →
      0 ≤ a₀ → a₀ < 1 →
      m₀ + ⌊a₀ + r * ds.sum / 1000⌋ ≤ maxM →
      ds.foldl (manaStep r maxM) (m₀, a₀) =
        (m₀ + ⌊a₀ + r * ds.sum / 1000⌋,
         a₀ + r * ds.sum / 1000 - (⌊a₀ + r * ds.sum / 1000⌋ : ℚ)) := by
  intro ds
  induction ds with
  | nil =>
      intro m₀ a₀ _ h0 h1 _
      have hfl : ⌊a₀⌋ = 0 := Int.floor_eq_zero_iff.mpr ⟨h0, h1⟩
      simp [hfl]
  | cons d rest ih =>
      intro m₀ a₀ hd h0 h1 hclamp
      have hd0 : (0:ℚ) ≤ d := hd d (List.mem_cons_self d rest)
      have hrest : ∀ e ∈ rest, (0:ℚ) ≤ e :=
        fun e he => hd e (List.mem_cons_of_mem d he)
      have ht0 : (0:ℚ) ≤ r * rest.sum / 1000 :=
        div_nonneg (mul_nonneg hr (List.sum_nonneg hrest)) (by norm_num)
      have hx0 : (0:ℚ) ≤ a₀ + r * d / 1000 :=
        add_nonneg h0 (div_nonneg (mul_nonneg hr hd0) (by norm_num))
      have hsplit : a₀ + r * (d :: rest).sum / 1000 =
          a₀ + r * d / 1000 + r * rest.sum / 1000 := by
        rw [List.sum_cons]; ring
      have hmono : ⌊a₀ + r * d / 1000⌋ ≤ ⌊a₀ + r * (d :: rest).sum / 1000⌋ := by
        apply Int.floor_le_floor
        rw [hsplit]; linarith
      rw [List.foldl_cons]
      rw [show manaStep r maxM (m₀, a₀) d =
          if 1 ≤ a₀ + r * d / 1000 then
            (min (m₀ + ⌊a₀ + r * d / 1000⌋) maxM,
             a₀ + r * d / 1000 - (⌊a₀ + r * d / 1000⌋ : ℚ))
          else (m₀, a₀ + r * d / 1000) from rfl]
      split_ifs with h1x
      · have hfr0 : (0:ℚ) ≤ a₀ + r * d / 1000 - (⌊a₀ + r * d / 1000⌋ : ℚ) :=
          sub_nonneg.mpr (Int.floor_le _)
        have hfr1 : a₀ + r * d / 1000 - (⌊a₀ + r * d / 1000⌋ : ℚ) < 1 := by
          have := Int.lt_floor_add_one (a₀ + r * d / 1000)
          linarith
        have hflshift :
            ⌊a₀ + r * d / 1000 - (⌊a₀ + r * d / 1000⌋ : ℚ) + r * rest.sum / 1000⌋ =
              ⌊a₀ + r * (d :: rest).sum / 1000⌋ - ⌊a₀ + r * d / 1000⌋ := by
          rw [show a₀ + r * d / 1000 - (⌊a₀ + r * d / 1000⌋ : ℚ) + r * rest.sum / 1000 =
              a₀ + r * d / 1000 + r * rest.sum / 1000 - (⌊a₀ + r * d / 1000⌋ : ℚ)
            from by ring, Int.floor_sub_int, hsplit]
        have hmin : min (m₀ + ⌊a₀ + r * d / 1000⌋) maxM =
            m₀ + ⌊a₀ + r * d / 1000⌋ := min_eq_left (by omega)
        rw [hmin, ih (m₀ + ⌊a₀ + r * d / 1000⌋) _ hrest hfr0 hfr1
          (by rw [hflshift]; omega)]
        rw [hflshift, Prod.mk.injEq]
        constructor
        · omega
        · push_cast
          rw [hsplit]
          ring
      · have hx1 : a₀ + r * d / 1000 < 1 := not_le.mp h1x
        rw [ih m₀ (a₀ + r * d / 1000) hrest hx0 hx1
          (by rw [← hsplit]; exact hclamp)]
        rw [hsplit]

/-- C4: over any sequence of non-negative deltas that never pushes mana to
the cap, the total mana granted by the accumulator is `⌊r·T⌋` within a
tolerance of 1 (`T` in seconds is `Σd/1000`), is independent of how the
total time is split into ticks, and is exactly `⌊r·T⌋` from a cleared
accumulator. -/
theorem C4_mana_regen_accumulator_conservation (r : ℚ) (maxM m₀ : ℤ)
    (a₀ : ℚ) (ds₁ ds₂ : List ℚ) (hr : 0 ≤ r)
    (h₁ : ∀ d ∈ ds₁, 0 ≤ d) (h₂ : ∀ d ∈ ds₂, 0 ≤ d)
    (h0 : 0 ≤ a₀) (h1 : a₀ < 1)
    (hclamp : m₀ + ⌊a₀ + r * ds₁.sum / 1000⌋ ≤ maxM)
    (hsum : ds₁.sum = ds₂.sum) :
    ⌊r * ds₁.sum / 1000⌋ ≤ (ds₁.foldl (manaStep r maxM) (m₀, a₀)).1 - m₀ ∧
    (ds₁.foldl (manaStep r maxM) (m₀, a₀)).1 - m₀ ≤ ⌊r * ds₁.sum / 1000⌋ + 1 ∧
    ds₁.foldl (manaStep r maxM) (m₀, a₀) =
      ds₂.foldl (manaStep r maxM) (m₀, a₀) ∧
    (a₀ = 0 →
      (ds₁.foldl (manaStep r maxM) (m₀, a₀)).1 - m₀ = ⌊r * ds₁.sum / 1000⌋) := by
  have e₁ := manaStep_foldl r maxM hr ds₁ m₀ a₀ h₁ h0 h1 hclamp
  have e₂ := manaStep_foldl r maxM hr ds₂ m₀ a₀ h₂ h0 h1
    (by rw [← hsum]; exact hclamp)
  refine ⟨?_, ?_, ?_, ?_⟩
  · rw [e₁]
    simp only [add_sub_cancel_left]
    exact Int.floor_le_floor (by linarith)
  · rw [e₁]
    simp only [add_sub_cancel_left]
    have hlt : a₀ + r * ds₁.sum / 1000 ≤ r * ds₁.sum / 1000 + 1 := by linarith
    calc ⌊a₀ + r * ds₁.sum / 1000⌋ ≤ ⌊r * ds₁.sum / 1000 + 1⌋ :=
          Int.floor_le_floor hlt
      _ = ⌊r * ds₁.sum / 1000⌋ + 1 := Int.floor_add_one _
  · rw [e₁, e₂, hsum]
  · intro ha
    subst ha
    rw [e₁]
    simp

/-- Witness for C4: 1 mana/s over 2.5 s grants exactly 2 mana whether the
time arrives as three ragged ticks or one large one. -/
theorem C4_witness :
    ([500, 250, 1750] : List ℚ).foldl (manaStep 1 100) ((0:ℤ), (0:ℚ)) =
      ([2500] : List ℚ).foldl (manaStep 1 100) ((0:ℤ), (0:ℚ)) ∧
    (([500, 250, 1750] : List ℚ).foldl (manaStep 1 100) ((0:ℤ), (0:ℚ))).1 - 0 =
      ⌊(1:ℚ) * ([500, 250, 1750] : List ℚ).sum / 1000⌋ := by
  have hfl : ⌊(0:ℚ) + 1 * ([500, 250, 1750] : List ℚ).sum / 1000⌋ = 2 := by
    rw [show (0:ℚ) + 1 * ([500, 250, 1750] : List ℚ).sum / 1000 = 5/2 from by
      norm_num]
    exact Int.floor_eq_iff.mpr (by norm_num)
  have h := C4_mana_regen_accumulator_conservation 1 100 0 0
    [500, 250, 1750] [2500]
    (by norm_num)
    (by intro d hd; fin_cases hd <;> norm_num)
    (by intro d hd; fin_cases hd <;> norm_num)
    le_rfl (by norm_num)
    (by rw [hfl]; norm_num)
    (by norm_num)
  exact ⟨h.2.2.1, h.2.2.2 rfl⟩

-- ===== C2 / C3 shared facts about the combat-end resolver =====

/-- When only the enemy died, `checkCombatEnd` replaces the enemy with a
fresh instance, zeroes the attack timer, and adds the kill award to the
player's gold, touching nothing else. -/
theorem checkCombatEnd_enemy_defeat (rng : Rng) (s : GameState)
    (hdead : s.enemy.hp ≤ 0) (halive : 0 < s.player.hp) :
    checkCombatEnd rng s =
      { s with enemy := createEnemy s.currentEnemyType, enemyAttackTimer := 0,
               player := { s.player with
                 gold := s.player.gold + enemyGoldAward rng } } := by
  unfold checkCombatEnd enemyDefeatStep playerDeathStep
  rw [if_pos hdead, if_neg (by simpa using not_le.mpr halive)]

/-- The gold side of the player-death branch: for a non-negative wallet the
resolver deducts exactly `goldPenalty`. -/
theorem playerDeathStep_gold (s : GameState) (hdead : s.player.hp ≤ 0)
    (hgold : 0 ≤ s.player.gold) :
    (playerDeathStep s).player.gold =
      s.player.gold - goldPenalty s.player.gold := by
  have hpen : 0 ≤ goldPenalty s.player.gold :=
    Int.floor_nonneg.mpr (div_nonneg (by exact_mod_cast hgold) (by norm_num))
  unfold playerDeathStep
  rw [if_pos hdead]
  by_cases hg : 0 < goldPenalty s.player.gold
  · simp [hg]
  · simp only [hg, if_false]
    omega

-- ===== C2 =====

/-- A double-defeat state: both the player and the enemy are at or below
0 HP when the resolver runs, and the player holds 100 gold. -/
def doubleDefeatState : GameState :=
  { initialEngineState with
      player := { initialEngineState.player with hp := -5, gold := 100 },
      enemy := { initialEngineState.enemy with hp := 0 } }

/-- C2 counterexample: in a double defeat the kill award (here 3 gold) is
added before the death penalty, so the resolved gold is 93, not
`100 - ⌊100·0.1⌋ = 90` as the claim requires for every state with
player HP ≤ 0. -/
theorem C2_counterexample :
    doubleDefeatState.player.hp ≤ 0 ∧
    (checkCombatEnd demoRng doubleDefeatState).player.gold = 93 ∧
    doubleDefeatState.player.gold -
      goldPenalty doubleDefeatState.player.gold = 90 := by
  have hmidgold : (enemyDefeatStep demoRng doubleDefeatState).player.gold = 103 := by
    norm_num [enemyDefeatStep, enemyGoldAward, demoRng, doubleDefeatState,
      initialEngineState, createPlayer, createEnemy, skeletonType]
  have hmidhp : (enemyDefeatStep demoRng doubleDefeatState).player.hp = -5 := by
    norm_num [enemyDefeatStep, enemyGoldAward, demoRng, doubleDefeatState,
      initialEngineState, createPlayer, createEnemy, skeletonType]
  have hpen : goldPenalty 103 = 10 := by
    rw [goldPenalty]
    exact Int.floor_eq_iff.mpr (by norm_num)
  have hpen100 : goldPenalty 100 = 10 := by
    rw [goldPenalty]
    exact Int.floor_eq_iff.mpr (by norm_num)
  refine ⟨by norm_num [doubleDefeatState, initialEngineState, createPlayer],
          ?_, ?_⟩
  · rw [checkCombatEnd,
      playerDeathStep_gold _ (by rw [hmidhp]; norm_num) (by rw [hmidgold]; norm_num),
      hmidgold, hpen]
    decide
  · rw [show doubleDefeatState.player.gold = 100 from rfl, hpen100]
    decide

/-- C2 (amended): when the player's HP is ≤ 0 and the enemy was not also
defeated in the same tick, the resolver restores HP and mana to their
(reservation-adjusted) maxima, clears the swing and the global cooldown,
deducts exactly `⌊gold·0.1⌋` gold, and leaves auras and summons
untouched. -/
theorem C2_player_death_reset (rng : Rng) (s : GameState)
    (hdead : s.player.hp ≤ 0) (halive : 0 < s.enemy.hp)
    (hgold : 0 ≤ s.player.gold) :
    (checkCombatEnd rng s).player.hp = s.player.maxHp ∧
    (checkCombatEnd rng s).player.mana = s.player.maxMana ∧
    (checkCombatEnd rng s).player.maxMana = s.player.maxMana ∧
    (checkCombatEnd rng s).isSwinging = false ∧
    (checkCombatEnd rng s).currentSwingTime = 0 ∧
    (checkCombatEnd rng s).globalCooldown = 0 ∧
    (checkCombatEnd rng s).player.gold =
      s.player.gold - goldPenalty s.player.gold ∧
    (checkCombatEnd rng s).windfuryActive = s.windfuryActive ∧
    (checkCombatEnd rng s).summons = s.summons := by
  have henemy : enemyDefeatStep rng s = s := by
    unfold enemyDefeatStep
    rw [if_neg (not_le.mpr halive)]
  have hgoldeq : (checkCombatEnd rng s).player.gold =
      s.player.gold - goldPenalty s.player.gold := by
    rw [checkCombatEnd, henemy, playerDeathStep_gold s hdead hgold]
  refine ⟨?_, ?_, ?_, ?_, ?_, ?_, hgoldeq, ?_, ?_⟩
  all_goals
    rw [checkCombatEnd, henemy]
    unfold playerDeathStep
    rw [if_pos hdead]
  all_goals
    by_cases hg : 0 < goldPenalty s.player.gold <;> simp [hg]

/-- The dead player with 37 gold, enemy still alive. -/
def deadPlayerState : GameState :=
  { initialEngineState with
      player := { initialEngineState.player with hp := 0, gold := 37 } }

/-- Witness for C2 at a concrete single-defeat state: the dead player with
37 gold respawns at full HP/mana with the swing and cooldown cleared and
exactly `⌊3.7⌋ = 3` gold deducted. -/
theorem C2_witness :
    (checkCombatEnd demoRng deadPlayerState).player.hp =
      deadPlayerState.player.maxHp ∧
    (checkCombatEnd demoRng deadPlayerState).player.mana =
      deadPlayerState.player.maxMana ∧
    (checkCombatEnd demoRng deadPlayerState).player.gold =
      deadPlayerState.player.gold - goldPenalty deadPlayerState.player.gold ∧
    (checkCombatEnd demoRng deadPlayerState).isSwinging = false ∧
    (checkCombatEnd demoRng deadPlayerState).globalCooldown = 0 := by
  have h := C2_player_death_reset demoRng deadPlayerState
    (by norm_num [deadPlayerState, initialEngineState, createPlayer])
    (by norm_num [deadPlayerState, initialEngineState, createEnemy, skeletonType])
    (by norm_num [deadPlayerState, initialEngineState, createPlayer])
  exact ⟨h.1, h.2.1, h.2.2.2.2.2.2.1, h.2.2.2.1, h.2.2.2.2.2.1⟩

-- ===== C3 =====

/-- A state in which only the enemy has been defeated this tick. -/
def enemyDeadState : GameState :=
  { initialEngineState with
      enemy := { initialEngineState.enemy with hp := -3 } }

/-- C3 counterexample: the enemy-defeat transition awards the kill gold to
the player, so the player's state is *not* untouched — from 10 gold the
player ends the resolver with 13. -/
theorem C3_counterexample :
    enemyDeadState.enemy.hp ≤ 0 ∧
    (checkCombatEnd demoRng enemyDeadState).player.gold = 13 ∧
    enemyDeadState.player.gold = 10 := by
  have h := checkCombatEnd_enemy_defeat demoRng enemyDeadState
    (by norm_num [enemyDeadState, initialEngineState, createEnemy, skeletonType])
    (by norm_num [enemyDeadState, initialEngineState, createPlayer])
  refine ⟨by norm_num [enemyDeadState, initialEngineState, createEnemy,
    skeletonType], ?_, by norm_num [enemyDeadState, initialEngineState,
    createPlayer]⟩
  rw [h]
  norm_num [enemyDeadState, initialEngineState, createPlayer, enemyGoldAward,
    demoRng]

/-- C3 (amended): when the enemy's HP is ≤ 0 (and the player survived the
tick), the resolver replaces the enemy with a freshly constructed
full-health instance of the same enemy type carrying the same name, resets
the attack timer to 0, leaves the summons untouched, and leaves the player
untouched apart from adding the kill gold award. -/
theorem C3_enemy_respawn (rng : Rng) (s : GameState)
    (hdead : s.enemy.hp ≤ 0) (halive : 0 < s.player.hp)
    (hname : s.enemy.name = s.currentEnemyType.name) :
    (checkCombatEnd rng s).enemy = createEnemy s.currentEnemyType ∧
    (checkCombatEnd rng s).enemy.hp = (checkCombatEnd rng s).enemy.maxHp ∧
    (checkCombatEnd rng s).enemy.name = s.enemy.name ∧
    (checkCombatEnd rng s).enemyAttackTimer = 0 ∧
    (checkCombatEnd rng s).summons = s.summons ∧
    (checkCombatEnd rng s).player =
      { s.player with gold := s.player.gold + enemyGoldAward rng } := by
  rw [checkCombatEnd_enemy_defeat rng s hdead halive]
  exact ⟨rfl, rfl, by rw [hname]; rfl, rfl, rfl, rfl⟩

/-- Witness for C3: the concrete defeated skeleton is replaced by a fresh
full-health skeleton with the same name and a zeroed attack timer. -/
theorem C3_witness :
    (checkCombatEnd demoRng enemyDeadState).enemy =
      createEnemy enemyDeadState.currentEnemyType ∧
    (checkCombatEnd demoRng enemyDeadState).enemy.hp =
      (checkCombatEnd demoRng enemyDeadState).enemy.maxHp ∧
    (checkCombatEnd demoRng enemyDeadState).enemy.name =
      enemyDeadState.enemy.name ∧
    (checkCombatEnd demoRng enemyDeadState).enemyAttackTimer = 0 ∧
    (checkCombatEnd demoRng enemyDeadState).summons =
      enemyDeadState.summons := by
  have h := C3_enemy_respawn demoRng enemyDeadState
    (by norm_num [enemyDeadState, initialEngineState, createEnemy, skeletonType])
    (by norm_num [enemyDeadState, initialEngineState, createPlayer])
    (by norm_num [enemyDeadState, initialEngineState, createEnemy, skeletonType])
  exact ⟨h.1, h.2.1, h.2.2.1, h.2.2.2.1, h.2.2.2.2.1⟩

-- ===== C7 =====

/-- The engine state right after the combat-end resolver replaced the
defeated enemy: the respawned skeleton stands at full health. -/
def respawnedState : GameState := checkCombatEnd demoRng enemyDeadState

/-- C7: the deferred Windfury bonus strike is neither cancelled nor made a
no-op by an enemy respawn.  Concretely: after the resolver has replaced
the defeated enemy (the replacement stands at full HP), the earlier
scheduled `setTimeout` callback fires, dereferences the engine's *current*
enemy, and damages the replacement — its HP drops below max.  The code
therefore violates the claim; the spec's own design notes flag this as a
defect of the source. -/
theorem C7_windfury_callback_hits_replacement :
    respawnedState.enemy.hp = respawnedState.enemy.maxHp ∧
    (windfuryMeleeCallback (1/2) respawnedState).enemy.hp <
      respawnedState.enemy.maxHp ∧
    (windfuryMeleeCallback (1/2) respawnedState).enemy ≠
      respawnedState.enemy := by
  have h : respawnedState =
      { enemyDeadState with
          enemy := createEnemy enemyDeadState.currentEnemyType,
          enemyAttackTimer := 0,
          player := { enemyDeadState.player with
            gold := enemyDeadState.player.gold + enemyGoldAward demoRng } } :=
    checkCombatEnd_enemy_defeat demoRng enemyDeadState
      (by norm_num [enemyDeadState, initialEngineState, createEnemy, skeletonType])
      (by norm_num [enemyDeadState, initialEngineState, createPlayer])
  have hdmg : calculateDamageWithVariance respawnedState.player.damage (1/2) = 10 := by
    rw [h]
    show calculateDamageWithVariance enemyDeadState.player.damage (1/2) = 10
    rw [show enemyDeadState.player.damage = 10 from rfl]
    rw [calculateDamageWithVariance, DAMAGE_VARIANCE_MAX, DAMAGE_VARIANCE_MIN,
      show ((10:ℤ) : ℚ) * ((1:ℚ)/2 * (12/10 - 8/10) + 8/10) = ((10:ℤ) : ℚ) from by
        norm_num,
      round_intCast]
  have hhp : respawnedState.enemy.hp = 100 := by rw [h]; rfl
  have hmax : respawnedState.enemy.maxHp = 100 := by rw [h]; rfl
  refine ⟨by rw [hhp, hmax], ?_, ?_⟩
  · rw [windfuryMeleeCallback, hdmg]
    simp only [hmax, hhp]
    norm_num
  · rw [windfuryMeleeCallback, hdmg]
    intro hcontra
    have hc := congrArg Character.hp hcontra
    simp only [hhp] at hc
    norm_num at hc

-- ===== C10 =====

/-- The mana-safety invariant: current mana, max mana and base mana are
all non-negative. -/
def ManaInv (s : GameState) : Prop :=
  0 ≤ s.player.mana ∧ 0 ≤ s.player.maxMana ∧ 0 ≤ s.player.baseMana

theorem manaInv_updateMana (d : ℚ) (s : GameState) (h : ManaInv s) :
    ManaInv (updateMana d s) := by
  obtain ⟨h1, h2, h3⟩ := h
  unfold updateMana manaStep
  by_cases ha : (1:ℚ) ≤ s.manaAccumulator + s.player.manaRegen * d / 1000
  · have hfl : (1:ℤ) ≤ ⌊s.manaAccumulator + s.player.manaRegen * d / 1000⌋ := by
      rw [Int.le_floor]
      exact_mod_cast ha
    simp only [ha, if_true]
    exact ⟨by simp; omega, h2, h3⟩
  · simp only [ha, if_false]
    exact ⟨h1, h2, h3⟩

theorem updateTimers_player (rng : Rng) (d : ℚ) (s : GameState) :
    (updateTimers rng d s).player = s.player := by
  unfold updateTimers completeMeleeSwing
  dsimp only
  split_ifs <;> rfl

theorem updateSummons_player (d : ℚ) (s : GameState) :
    (updateSummons d s).player = s.player := rfl

theorem processSummonActions_player (rng : Rng) (d : ℚ) (s : GameState) :
    (processSummonActions rng d s).player = s.player := by
  unfold processSummonActions
  split_ifs <;> rfl

theorem manaInv_of_player_eq {s t : GameState} (he : t.player = s.player)
    (h : ManaInv s) : ManaInv t := by
  unfold ManaInv
  rw [he]
  exact h

theorem manaInv_processEnemyAction (rng : Rng) (d : ℚ) (s : GameState)
    (h : ManaInv s) : ManaInv (processEnemyAction rng d s) := by
  unfold processEnemyAction enemyAttack
  dsimp only
  split_ifs <;> exact h

theorem manaInv_checkCombatEnd (rng : Rng) (s : GameState) (h : ManaInv s) :
    ManaInv (checkCombatEnd rng s) := by
  obtain ⟨h1, h2, h3⟩ := h
  unfold checkCombatEnd enemyDefeatStep playerDeathStep
  dsimp only
  split_ifs <;> exact ⟨by first | exact h1 | exact h2, h2, h3⟩

theorem manaInv_castInstantSpell_holy (rng : Rng) (s : GameState)
    (h : ManaInv s) (hm : holyStrike.manaCost ≤ s.player.mana) :
    ManaInv (castInstantSpell rng holyStrike s) := by
  obtain ⟨h1, h2, h3⟩ := h
  have hm' : (25:ℤ) ≤ s.player.mana := hm
  unfold castInstantSpell
  exact ⟨by show (0:ℤ) ≤ s.player.mana - 25; omega, h2, h3⟩

theorem manaInv_castHolyStrike (rng : Rng) (s : GameState) (h : ManaInv s) :
    ManaInv (castHolyStrike rng s) := by
  unfold castHolyStrike
  split_ifs with h1 h2 h3 h4 h5
  · exact h
  · exact h
  · exact h
  · exact h
  · exact manaInv_castInstantSpell_holy rng (cancelMeleeSwing s) h
      (not_lt.mp h3)
  · exact manaInv_castInstantSpell_holy rng s h (not_lt.mp h3)

theorem manaInv_castSummonSkeleton (s : GameState) (h : ManaInv s) :
    ManaInv (castSummonSkeleton s) := by
  obtain ⟨h1, h2, h3⟩ := h
  unfold castSummonSkeleton
  split_ifs with h1' h2' h3' h4' h5'
  · exact ⟨h1, h2, h3⟩
  · exact ⟨h1, h2, h3⟩
  · exact ⟨h1, h2, h3⟩
  · exact ⟨h1, h2, h3⟩
  · have := not_lt.mp h3'
    exact ⟨by show (0:ℤ) ≤ s.player.mana - SUMMON_MANA_COST; unfold SUMMON_MANA_COST at *; omega, h2, h3⟩
  · have := not_lt.mp h3'
    exact ⟨by show (0:ℤ) ≤ s.player.mana - SUMMON_MANA_COST; unfold SUMMON_MANA_COST at *; omega, h2, h3⟩

theorem manaInv_toggleWindfury (s : GameState) (h : ManaInv s) :
    ManaInv (toggleWindfuryAura WINDFURY_MANA_RESERVE s) := by
  obtain ⟨h1, h2, h3⟩ := h
  have hflo : (0:ℤ) ≤ ⌊(s.player.baseMana : ℚ) * (1 - WINDFURY_MANA_RESERVE)⌋ := by
    apply Int.floor_nonneg.mpr
    apply mul_nonneg (by exact_mod_cast h3)
    norm_num [WINDFURY_MANA_RESERVE]
  unfold toggleWindfuryAura
  dsimp only
  split_ifs with hact hm hm
  · exact ⟨h3, h3, h3⟩
  · exact ⟨h1, h3, h3⟩
  · exact ⟨hflo, hflo, h3⟩
  · exact ⟨h1, hflo, h3⟩

/-- Rule conditions that select `holy_strike` include the affordability
gate: a satisfied rule whose action is `holy_strike` implies the mana cost
is covered. -/
theorem cond_holy_strike_needs_mana (s : GameState) (r : CombatRule)
    (ha : r.action = "holy_strike")
    (h : checkSimpleRuleCondition s r = true) :
    holyStrike.manaCost ≤ s.player.mana := by
  unfold checkSimpleRuleCondition at h
  rw [ha] at h
  split_ifs at h <;> simp_all

/-- A successful `firstMatch` comes from some enabled, satisfied rule in
the list. -/
theorem firstMatch_mem (s : GameState) :
    ∀ (l : List CombatRule) (a : String), firstMatch s l = some a →
      ∃ r, r ∈ l ∧ r.enabled = true ∧ checkSimpleRuleCondition s r = true ∧
        r.action = a := by
  intro l
  induction l with
  | nil => intro a h; simp [firstMatch] at h
  | cons r rs ih =>
      intro a h
      rw [firstMatch] at h
      by_cases hc : (r.enabled && checkSimpleRuleCondition s r) = true
      · rw [if_pos hc] at h
        rw [Bool.and_eq_true] at hc
        exact ⟨r, List.mem_cons_self r rs, hc.1, hc.2, Option.some.inj h⟩
      · rw [if_neg hc] at h
        obtain ⟨r', hr', hrest⟩ := ih a h
        exact ⟨r', List.mem_cons_of_mem r hr', hrest⟩

theorem selectAction_holy_needs_mana (s : GameState)
    (h : selectAction s = some "holy_strike") :
    holyStrike.manaCost ≤ s.player.mana := by
  obtain ⟨r, _, _, hcond, ha⟩ := firstMatch_mem s (sortRules s.combatRules) _ h
  exact cond_holy_strike_needs_mana s r ha hcond

theorem manaInv_executeAction (rng : Rng) (a : String) (s : GameState)
    (h : ManaInv s)
    (hgate : a = "holy_strike" → holyStrike.manaCost ≤ s.player.mana) :
    ManaInv (executeAction rng a s) := by
  unfold executeAction
  split_ifs with h1 h2 h3 h4 h5
  · exact manaInv_castInstantSpell_holy rng (cancelMeleeSwing s) h (hgate h1)
  · exact manaInv_castInstantSpell_holy rng s h (hgate h1)
  · exact manaInv_castSummonSkeleton s h
  · exact h
  · exact h
  · exact manaInv_toggleWindfury s h
  · exact h

theorem manaInv_processPlayerAction (rng : Rng) (s : GameState)
    (h : ManaInv s) : ManaInv (processPlayerAction rng s) := by
  unfold processPlayerAction
  split_ifs with h1
  · exact h
  · rcases hsel : selectAction s with _ | a
    · exact h
    · refine manaInv_executeAction rng a s h (fun ha => ?_)
      subst ha
      exact selectAction_holy_needs_mana s hsel

theorem manaInv_tick (rng : Rng) (d : ℚ) (s : GameState) (h : ManaInv s) :
    ManaInv (tick rng d s) := by
  unfold tick
  apply manaInv_checkCombatEnd
  apply manaInv_processEnemyAction
  apply manaInv_of_player_eq (processSummonActions_player rng d _)
  apply manaInv_processPlayerAction
  apply manaInv_of_player_eq (updateSummons_player d _)
  apply manaInv_of_player_eq (updateTimers_player rng d _)
  exact manaInv_updateMana d s h

/-- C10: player mana never goes negative — every mana deduction (holy
strike, summon skeleton, and the rule-engine dispatch into those casts)
is guarded by an affordability check, so starting from non-negative
mana/maxMana/baseMana, the mana stays non-negative across `tick` and
across every public combat entry point. -/
theorem C10_mana_nonnegative_invariant (rng : Rng) (d : ℚ) (s : GameState)
    (h1 : 0 ≤ s.player.mana) (h2 : 0 ≤ s.player.maxMana)
    (h3 : 0 ≤ s.player.baseMana) :
    0 ≤ (castHolyStrike rng s).player.mana ∧
    0 ≤ (castSummonSkeleton s).player.mana ∧
    0 ≤ (toggleWindfuryAura WINDFURY_MANA_RESERVE s).player.mana ∧
    0 ≤ (processPlayerAction rng s).player.mana ∧
    0 ≤ (tick rng d s).player.mana :=
  ⟨(manaInv_castHolyStrike rng s ⟨h1, h2, h3⟩).1,
   (manaInv_castSummonSkeleton s ⟨h1, h2, h3⟩).1,
   (manaInv_toggleWindfury s ⟨h1, h2, h3⟩).1,
   (manaInv_processPlayerAction rng s ⟨h1, h2, h3⟩).1,
   (manaInv_tick rng d s ⟨h1, h2, h3⟩).1⟩

/-- Witness for C10 at the initial engine state with a 50 ms tick. -/
theorem C10_witness :
    0 ≤ (castHolyStrike demoRng initialEngineState).player.mana ∧
    0 ≤ (tick demoRng 50 initialEngineState).player.mana := by
  have h := C10_mana_nonnegative_invariant demoRng 50 initialEngineState
    (by norm_num [initialEngineState, createPlayer])
    (by norm_num [initialEngineState, createPlayer])
    (by norm_num [initialEngineState, createPlayer])
  exact ⟨h.1, h.2.2.2.2⟩

end IdleARPG
